import Mathlib

/-!
Verification model of the Coroutine repository's I/O manager, scheduler,
fiber and syscall-hook layer.  Each definition is a shallow embedding of
the corresponding C++ function; machine integers are modelled as `Nat`
with explicit wrap-around where the width matters.
-/

set_option maxHeartbeats 1000000

namespace CoroutineModel

/-! ## Constants (values as on Linux / in the source headers) -/

def EPOLLIN : Nat := 1

def EPOLLOUT : Nat := 4

def EPOLLERR : Nat := 8

def EPOLLHUP : Nat := 16

/-- IOManager::Event READ; the dispatch code mixes it with EPOLLIN bits,
so READ = EPOLLIN. -/
def READ : Nat := 1

/-- IOManager::Event WRITE = EPOLLOUT. -/
def WRITE : Nat := 4

def O_NONBLOCK : Nat := 2048

def EBADF : Nat := 9

def ETIMEDOUT : Nat := 110

/-- The hard cap used by IOManager::idle. -/
def MAX_TIMEOUT : Nat := 5000

/-- Maximum events accepted per epoll_wait call in IOManager::idle. -/
def MAX_EVNETS : Nat := 256

/-- The C++ value ~0ull, the "no timer" sentinel of getNextTimer. -/
def UINT64_MAX : Nat := 2 ^ 64 - 1

/-- 32-bit complement, as C's `~x` on an int-sized mask. -/
def cNot32 (x : Nat) : Nat := 4294967295 ^^^ x

/-- Increment of the size_t counter m_pendingEventCount. -/
def incr64 (p : Nat) : Nat := (p + 1) % 2 ^ 64

/-- Decrement of the size_t counter m_pendingEventCount (wraps at 0). -/
def decr64 (p : Nat) : Nat := (p + (2 ^ 64 - 1)) % 2 ^ 64

theorem incr64_eq (p : Nat) (h : p + 1 < 2 ^ 64) : incr64 p = p + 1 := by
  unfold incr64
  omega

theorem decr64_eq (p : Nat) (h1 : 1 ≤ p) (h2 : p < 2 ^ 64) : decr64 p = p - 1 := by
  unfold decr64
  omega

/-! ## Base scheduler stopping condition (Scheduler::stopping) -/

/-- The fields of Scheduler that its stopping() reads. -/
structure SchedState where
  m_stopping : Bool
  tasksEmpty : Bool
  activeThreadCount : Nat
deriving DecidableEq

/-- Scheduler::stopping(): m_stopping AND m_tasks.empty() AND
m_activeThreadCount == 0. -/
def schedulerStopping (s : SchedState) : Bool :=
  s.m_stopping && s.tasksEmpty && (s.activeThreadCount == 0)

/-- IOManager::stopping(uint64_t& timeout): sets timeout = getNextTimer()
and returns timeout == ~0ull AND m_pendingEventCount == 0 AND
Scheduler::stopping().  `nextTimer` is the value getNextTimer() returns. -/
def stoppingTimeout (nextTimer pending : Nat) (s : SchedState) : Bool × Nat :=
  ((nextTimer == UINT64_MAX) && (pending == 0) && schedulerStopping s, nextTimer)

/-- IOManager::stopping() (no argument): m_pendingEventCount == 0 AND
Scheduler::stopping(); no timer condition. -/
def stoppingNoArg (pending : Nat) (s : SchedState) : Bool :=
  (pending == 0) && schedulerStopping s

/-- The check that terminates the reactor loop: IOManager::idle calls the
no-argument stopping() at the top of its while(true). -/
def idleStopCheck (nextTimer pending : Nat) (s : SchedState) : Bool :=
  stoppingNoArg pending s

/-! ## The epoll_wait retry loop inside IOManager::idle -/

/-- Outcome of one epoll_wait call, an environment input. -/
inductive WaitRes where
  | ok (n : Nat)
  | errEINTR
  | errOther
deriving DecidableEq

/-- The inner do-while of IOManager::idle, driven by a finite trace of
epoll_wait outcomes.  Returns the list of timeout arguments passed to
epoll_wait and, if the loop exited within the trace, the value of the
OUTER `rt` variable (the epoll_wait result is stored in a shadowing inner
`rt`, so the outer one keeps its initial value 0) that the dispatch for
loop will use.  As written the source breaks only on a non-EINTR error;
EINTR continues and a successful wait also falls through to the next
iteration because no break follows it. -/
def idleWaitLoop (next_timeout : Nat) : List WaitRes → List Nat × Option Int
  | [] => ([], none)
  | r :: rest =>
    let nt := if next_timeout ≠ UINT64_MAX
              then min next_timeout MAX_TIMEOUT else MAX_TIMEOUT
    match r with
    | .errEINTR => let (args, out) := idleWaitLoop nt rest; (MAX_TIMEOUT :: args, out)
    | .errOther => ([MAX_TIMEOUT], some 0)
    | .ok _ => let (args, out) := idleWaitLoop nt rest; (MAX_TIMEOUT :: args, out)

/-! ## Fd context of the fd manager (hook layer) -/

/-- Modelled from the spec: the FdCtx record of the fd manager
(fd_manager.h/.cc are not under src/; only the hook code that reads and
writes these fields is).  Per spec section 3, an fd context carries
socket-ness, closed-ness, the kernel non-blocking flag, the
user-requested non-blocking flag and the two per-direction timeouts; the
accessors used by the hooks (isClose, isSocket, getUserNonblock,
setUserNonblock, getSysNonblock, getTimeout, setTimeout) are plain
field reads and writes. -/
structure FdCtx where
  isSocket : Bool
  isClosed : Bool
  sysNonblock : Bool
  userNonblock : Bool
  recvTimeout : Nat
  sendTimeout : Nat
deriving DecidableEq

/-- The F_SETFL arm of the fcntl hook: remember the user's O_NONBLOCK
intent in the fd context, then force the argument's O_NONBLOCK bit to the
kernel-level flag before delegating.  Returns the updated context and the
flag word actually passed to the real fcntl. -/
def fcntlSetfl (ctx : Option FdCtx) (arg : Nat) : Option FdCtx × Nat :=
  match ctx with
  | none => (none, arg)
  | some c =>
    if c.isClosed || !c.isSocket then (some c, arg)
    else
      let c' := { c with userNonblock := arg &&& O_NONBLOCK ≠ 0 }
      let arg' := if c'.sysNonblock then arg ||| O_NONBLOCK
                  else arg &&& cNot32 O_NONBLOCK
      (some c', arg')

/-- The F_GETFL arm of the fcntl hook: take the kernel's answer and
rewrite its O_NONBLOCK bit to the user's recorded intent. -/
def fcntlGetfl (ctx : Option FdCtx) (kernelFlags : Nat) : Nat :=
  match ctx with
  | none => kernelFlags
  | some c =>
    if c.isClosed || !c.isSocket then kernelFlags
    else if c.userNonblock then kernelFlags ||| O_NONBLOCK
    else kernelFlags &&& cNot32 O_NONBLOCK

/-! ## The entry checks of the do_io hook template -/

/-- What the front of do_io decides before touching the fd: delegate to
the original syscall unchanged, return an error without any syscall, or
continue into the hooked retry path (which will then issue the original
syscall non-blockingly). -/
inductive DoIoPre where
  | callOriginal
  | returnErr (ret : Int) (errno : Nat)
  | hookPath (timeoutMs : Nat)
deriving DecidableEq

/-- The guard sequence at the top of do_io: hook disabled, missing
context, closed context, non-socket or user-requested non-blocking.
`timeoutSo` selects which per-direction timeout ctx->getTimeout reads:
true for SO_RCVTIMEO (recv), false for SO_SNDTIMEO. -/
def do_io_pre (hookEnabled : Bool) (ctx : Option FdCtx) (timeoutSo : Bool) : DoIoPre :=
  if !hookEnabled then .callOriginal
  else
    match ctx with
    | none => .callOriginal
    | some c =>
      if c.isClosed then .returnErr (-1) EBADF
      else if !c.isSocket || c.userNonblock then .callOriginal
      else .hookPath (if timeoutSo then c.recvTimeout else c.sendTimeout)

/-! ## The conditional-timer witness protocol of do_io -/

/-- The shared timer_info witness of do_io. -/
structure TimerInfo where
  cancelled : Nat
deriving DecidableEq

/-- The conditional timer callback armed by do_io: if the witness is gone
or already cancelled do nothing, else mark it cancelled = ETIMEDOUT and
cancel the pending event (the Bool reports whether cancelEvent(fd, dir)
was invoked). -/
def ioTimerCb (winfo : Option TimerInfo) : Option TimerInfo × Bool :=
  match winfo with
  | none => (none, false)
  | some t =>
    if t.cancelled ≠ 0 then (some t, false)
    else (some { cancelled := ETIMEDOUT }, true)

/-- What do_io does right after its yield returns: cancel the timer, then
if the witness was cancelled set errno to the recorded code and return
-1; otherwise goto retry (modelled as `none`). -/
def doIoAfterResume (tinfo : TimerInfo) : Option (Int × Nat) :=
  if tinfo.cancelled ≠ 0 then some (-1, tinfo.cancelled) else none

/-! ## Fiber states and yield -/

inductive FiberState where
  | READY
  | RUNNING
  | TERM
deriving DecidableEq

/-- The thread-local fiber pointers read by Fiber::yield. -/
structure FiberTL where
  tFiber : Option Nat
  tThreadFiber : Nat
deriving DecidableEq

/-- Fiber::yield on a fiber whose state is `st`: assert the state is
RUNNING or TERM (anything else aborts, modelled as `none`), set the
current fiber to the thread's main fiber, and move RUNNING to READY while
leaving TERM alone.  The subsequent swapcontext transfers control and
does not change these fields. -/
def fiberYield (st : FiberState) (tl : FiberTL) : Option (FiberState × FiberTL) :=
  if st = .RUNNING ∨ st = .TERM then
    some (if st ≠ .TERM then .READY else st,
          { tl with tFiber := some tl.tThreadFiber })
  else none

/-! ## IOManager fd contexts, event registration and the reactor -/

/-- A task handed to Scheduler::schedule by triggerEvent: the stored
callback or the stored fiber (the fiber pointer may be null, the source
schedules it regardless). -/
inductive Task where
  | cb (c : Nat)
  | fib (f : Option Nat)
deriving DecidableEq

/-- One of the two per-direction event slots of an fd context. -/
structure EventContext where
  scheduler : Option Nat
  fiber : Option Nat
  cb : Option Nat
deriving DecidableEq

def emptyEventContext : EventContext :=
  { scheduler := none, fiber := none, cb := none }

/-- FdContext: the registered-events mask and the two slots. -/
structure FdContext where
  fd : Nat
  events : Nat
  read : EventContext
  write : EventContext
deriving DecidableEq

def freshFdContext (i : Nat) : FdContext :=
  { fd := i, events := 0, read := emptyEventContext, write := emptyEventContext }

/-- FdContext::getEventContext: READ picks the read slot, WRITE the
write slot, anything else asserts (none). `0` names read, `1` write. -/
def getEventContextIdx (ev : Nat) : Option Nat :=
  if ev = READ then some 0 else if ev = WRITE then some 1 else none

def getSlot (c : FdContext) (idx : Nat) : EventContext :=
  if idx = 0 then c.read else c.write

def setSlot (c : FdContext) (idx : Nat) (e : EventContext) : FdContext :=
  if idx = 0 then { c with read := e } else { c with write := e }

/-- FdContext::triggerEvent: assert the bit is registered (else abort,
modelled as none), clear it, schedule the stored callback if present
else the stored fiber, and reset the slot.  Returns the updated context
and the schedule list with the new task appended. -/
def triggerEvent (c : FdContext) (ev : Nat) (sched : List Task) :
    Option (FdContext × List Task) :=
  if c.events &&& ev = 0 then none
  else
    match getEventContextIdx ev with
    | none => none
    | some idx =>
      let c1 := { c with events := c.events &&& cNot32 ev }
      let e := getSlot c1 idx
      let task := match e.cb with
        | some cbv => Task.cb cbv
        | none => Task.fib e.fiber
      some (setSlot c1 idx emptyEventContext, sched ++ [task])

/-- The observable IOManager state the event operations touch: the fd
context table (vector indexed by fd), the pending-event counter and the
list of tasks handed to the scheduler. -/
structure IOMState where
  ctxs : List FdContext
  pending : Nat
  sched : List Task
deriving DecidableEq

/-- Fetch the fd's context from the table (m_fdContexts[fd]). -/
def ctxAt (s : IOMState) (fd : Nat) : FdContext :=
  s.ctxs.getD fd (freshFdContext fd)

/-- IOManager::contextResize: resize the vector to `n` and allocate a
fresh context (with its fd recorded) in every empty cell. -/
def contextResize (l : List FdContext) (n : Nat) : List FdContext :=
  l.take n ++ ((List.range n).drop (min n l.length)).map freshFdContext

/-- Outcome of an event operation: `abort` is an assertion failure,
`ret` the C++ return value. -/
inductive OpRes (α : Type) where
  | abort
  | ret (a : α)
deriving DecidableEq

/-- IOManager::addEvent(fd, event, cb).  Environment inputs: the current
scheduler (`sc`), the current fiber and whether it is RUNNING (read by
the assertion when no callback is supplied), and the result of the
epoll_ctl call (`epollOk`).  The source grows the table to fd*1.5 when
fd is out of range, rejects a duplicate direction by assertion, returns
-1 if epoll_ctl fails, and otherwise increments m_pendingEventCount,
extends the mask and populates the slot (asserting it was empty). -/
def addEvent (s : IOMState) (fd ev : Nat) (cbArg : Option Nat)
    (sc : Nat) (curFiber : Nat) (curFiberRunning : Bool) (epollOk : Bool) :
    OpRes Int × IOMState :=
  let s := if s.ctxs.length > fd then s
           else { s with ctxs := contextResize s.ctxs (3 * fd / 2) }
  let c := ctxAt s fd
  if c.events &&& ev ≠ 0 then (.abort, s)
  else if !epollOk then (.ret (-1), s)
  else
    let pending' := incr64 s.pending
    let c := { c with events := c.events ||| ev }
    match getEventContextIdx ev with
    | none => (.abort, { s with pending := pending', ctxs := s.ctxs.set fd c })
    | some idx =>
      if getSlot c idx ≠ emptyEventContext then
        (.abort, { s with pending := pending', ctxs := s.ctxs.set fd c })
      else if cbArg.isNone && !curFiberRunning then
        (.abort, { s with pending := pending', ctxs := s.ctxs.set fd c })
      else
        let e : EventContext :=
          { scheduler := some sc,
            fiber := if cbArg.isSome then none else some curFiber,
            cb := cbArg }
        (.ret 0,
          { s with pending := pending', ctxs := s.ctxs.set fd (setSlot c idx e) })

/-- IOManager::delEvent(fd, event): false when the fd is out of range,
the direction is unregistered or epoll_ctl fails; otherwise decrement
m_pendingEventCount, shrink the mask and reset the slot without firing
anything. -/
def delEvent (s : IOMState) (fd ev : Nat) (epollOk : Bool) :
    OpRes Bool × IOMState :=
  if s.ctxs.length ≤ fd then (.ret false, s)
  else
    let c := ctxAt s fd
    if c.events &&& ev = 0 then (.ret false, s)
    else if !epollOk then (.ret false, s)
    else
      let pending' := decr64 s.pending
      let c := { c with events := c.events &&& cNot32 ev }
      match getEventContextIdx ev with
      | none => (.abort, { s with pending := pending', ctxs := s.ctxs.set fd c })
      | some idx =>
        (.ret true,
          { s with pending := pending',
                   ctxs := s.ctxs.set fd (setSlot c idx emptyEventContext) })

/-- IOManager::cancelEvent(fd, event): like delEvent but fires the event
once via triggerEvent (which also clears the mask bit and resets the
slot) before decrementing the pending counter. -/
def cancelEvent (s : IOMState) (fd ev : Nat) (epollOk : Bool) :
    OpRes Bool × IOMState :=
  if s.ctxs.length ≤ fd then (.ret false, s)
  else
    let c := ctxAt s fd
    if c.events &&& ev = 0 then (.ret false, s)
    else if !epollOk then (.ret false, s)
    else
      match triggerEvent c ev s.sched with
      | none => (.abort, s)
      | some (c', sched') =>
        (.ret true,
          { s with pending := decr64 s.pending,
                   ctxs := s.ctxs.set fd c', sched := sched' })

/-- IOManager::cancelAll(fd): EPOLL_CTL_DEL the fd, then fire each of the
two directions that is registered, decrementing the pending counter per
firing, and assert the mask ended at zero. -/
def cancelAll (s : IOMState) (fd : Nat) (epollOk : Bool) :
    OpRes Bool × IOMState :=
  if s.ctxs.length ≤ fd then (.ret false, s)
  else
    let c := ctxAt s fd
    if c.events = 0 then (.ret false, s)
    else if !epollOk then (.ret false, s)
    else
      let step1 : Option (FdContext × List Task × Nat) :=
        if c.events &&& READ ≠ 0 then
          match triggerEvent c READ s.sched with
          | none => none
          | some (c', sch') => some (c', sch', decr64 s.pending)
        else some (c, s.sched, s.pending)
      match step1 with
      | none => (.abort, s)
      | some (c1, sch1, p1) =>
        let step2 : Option (FdContext × List Task × Nat) :=
          if c1.events &&& WRITE ≠ 0 then
            match triggerEvent c1 WRITE sch1 with
            | none => none
            | some (c', sch') => some (c', sch', decr64 p1)
          else some (c1, sch1, p1)
        match step2 with
        | none => (.abort, s)
        | some (c2, sch2, p2) =>
          if c2.events ≠ 0 then (.abort, s)
          else (.ret true,
            { s with pending := p2, ctxs := s.ctxs.set fd c2, sched := sch2 })

/-- The readiness translation of IOManager::idle for one epoll_event:
error/hangup conditions add both directions restricted to the registered
ones, then EPOLLIN maps to READ and EPOLLOUT to WRITE. -/
def realEventsOf (evbits ctxEvents : Nat) : Nat :=
  let eb := if evbits &&& (EPOLLERR ||| EPOLLHUP) ≠ 0
            then evbits ||| ((EPOLLIN ||| EPOLLOUT) &&& ctxEvents)
            else evbits
  (if eb &&& EPOLLIN ≠ 0 then READ else 0) |||
    (if eb &&& EPOLLOUT ≠ 0 then WRITE else 0)

/-- The per-descriptor dispatch of IOManager::idle: compute the fired
directions, skip the fd if none of them is registered, re-register the
leftover mask with the kernel (skipping the fd on failure), then
triggerEvent each fired direction and decrement the pending counter per
firing. -/
def idleDispatchOne (s : IOMState) (fd evbits : Nat) (epollOk : Bool) :
    Option IOMState :=
  let c := ctxAt s fd
  let real := realEventsOf evbits c.events
  if c.events &&& real = 0 then some s
  else if !epollOk then some s
  else
    let step1 : Option (FdContext × List Task × Nat) :=
      if real &&& READ ≠ 0 then
        match triggerEvent c READ s.sched with
        | none => none
        | some (c', sch') => some (c', sch', decr64 s.pending)
      else some (c, s.sched, s.pending)
    match step1 with
    | none => none
    | some (c1, sch1, p1) =>
      let step2 : Option (FdContext × List Task × Nat) :=
        if real &&& WRITE ≠ 0 then
          match triggerEvent c1 WRITE sch1 with
          | none => none
          | some (c', sch') => some (c', sch', decr64 p1)
        else some (c1, sch1, p1)
      match step2 with
      | none => none
      | some (c2, sch2, p2) =>
        some { s with pending := p2, ctxs := s.ctxs.set fd c2, sched := sch2 }

/-- The number of directions present in a mask; the amount by which one
firing pass or cancelAll decrements the pending counter. -/
def eventCount (m : Nat) : Nat :=
  (if m &&& READ ≠ 0 then 1 else 0) + (if m &&& WRITE ≠ 0 then 1 else 0)

/-- getD after set at the same in-range index gives the new element. -/
theorem getD_set_self {α : Type} :
    ∀ (l : List α) (i : Nat) (a d : α), i < l.length →
      (l.set i a).getD i d = a
  | [], _, _, _, h => absurd h (by simp)
  | _ :: _, 0, _, _, _ => rfl
  | _ :: xs, i + 1, a, d, h => getD_set_self xs i a d (by simpa using h)

/-- ctxAt after an in-range in-place table update. -/
theorem ctxAt_set (l : List FdContext) (p : Nat) (ts : List Task)
    (fd : Nat) (c : FdContext) (h : fd < l.length) :
    ctxAt ⟨l.set fd c, p, ts⟩ fd = c :=
  getD_set_self l fd c (freshFdContext fd) h

theorem setSlot_events (c : FdContext) (idx : Nat) (e : EventContext) :
    (setSlot c idx e).events = c.events := by
  unfold setSlot
  split <;> rfl

theorem getSlot_events_update (c : FdContext) (e' : Nat) (idx : Nat) :
    getSlot { c with events := e' } idx = getSlot c idx := by
  unfold getSlot
  split <;> rfl

/-- triggerEvent succeeds when the direction is registered and valid,
clearing the bit, resetting the slot and appending one task. -/
theorem triggerEvent_some (c : FdContext) (ev idx : Nat) (sched : List Task)
    (hreg : c.events &&& ev ≠ 0) (hidx : getEventContextIdx ev = some idx) :
    ∃ ts, triggerEvent c ev sched =
      some (setSlot { c with events := c.events &&& cNot32 ev } idx
              emptyEventContext,
            sched ++ [ts]) := by
  simp only [triggerEvent, hreg, if_false, hidx, getSlot_events_update]
  exact ⟨_, rfl⟩

/-- addEvent success characterization: in-range fd, free direction,
valid slot, kernel call ok, no callback restriction violated. -/
theorem addEvent_ok (s : IOMState) (fd ev : Nat) (cbArg : Option Nat)
    (sc cf idx : Nat)
    (hlen : fd < s.ctxs.length)
    (hfree : (ctxAt s fd).events &&& ev = 0)
    (hidx : getEventContextIdx ev = some idx)
    (hslot : getSlot (ctxAt s fd) idx
               = emptyEventContext) :
    addEvent s fd ev cbArg sc cf true true =
      (.ret 0,
        { s with
            pending := incr64 s.pending,
            ctxs := s.ctxs.set fd
              (setSlot
                { ctxAt s fd with
                    events := (ctxAt s fd).events ||| ev }
                idx
                { scheduler := some sc,
                  fiber := if cbArg.isSome then none else some cf,
                  cb := cbArg }) }) := by
  simp only [addEvent, gt_iff_lt, hlen, if_true, hfree, ne_eq,
    not_true_eq_false, Bool.not_true, if_false, hidx, getSlot_events_update,
    hslot, Bool.and_false]
  simp

/-- delEvent success characterization. -/
theorem delEvent_ok (s : IOMState) (fd ev idx : Nat)
    (hlen : fd < s.ctxs.length)
    (hreg : (ctxAt s fd).events &&& ev ≠ 0)
    (hidx : getEventContextIdx ev = some idx) :
    delEvent s fd ev true =
      (.ret true,
        { s with
            pending := decr64 s.pending,
            ctxs := s.ctxs.set fd
              (setSlot
                { ctxAt s fd with
                    events :=
                      (ctxAt s fd).events &&& cNot32 ev }
                idx emptyEventContext) }) := by
  have h1 : ¬ (s.ctxs.length ≤ fd) := by omega
  simp only [delEvent, h1, if_false, hreg, hidx]
  simp

/-! ## Theorems for claims C1, C2, C4, C7, C8, C10 -/

/-- C1: the spec says each reactor iteration passes
min(time_to_next_timer, 5000) to epoll_wait, retries on EINTR and then
dispatches at most 256 events.  The code instead passes the literal
MAX_TIMEOUT, never leaves the wait loop after a successful wait (no break
on success), and on the error exit the dispatch count is the shadowed
outer rt = 0.  Evaluated at a failing input: next timer due in 100 ms,
one successful wait returning 3 events. -/
theorem c1_idle_wait_code_bug :
    idleWaitLoop 100 [WaitRes.ok 3] = ([MAX_TIMEOUT], none) ∧
    idleWaitLoop 100 [WaitRes.errEINTR, WaitRes.ok 3]
      = ([MAX_TIMEOUT, MAX_TIMEOUT], none) ∧
    (idleWaitLoop 100 [WaitRes.ok 3]).1 ≠ [min 100 MAX_TIMEOUT] ∧
    idleWaitLoop 100 [WaitRes.errOther] = ([MAX_TIMEOUT], some 0) := by
  refine ⟨rfl, rfl, ?_, rfl⟩
  decide

/-- C2 counterexample: with a timer pending in 100 ms, zero pending
events and a stopping base scheduler, the check that terminates the
reactor loop (the no-argument stopping() called by idle) returns true,
while the claimed condition "no timers pending AND pending == 0 AND base
stopping" is false; so the claimed iff fails on the code. -/
theorem c2_stopping_counterexample :
    idleStopCheck 100 0 ⟨true, true, 0⟩ = true ∧
    ((100 == UINT64_MAX) && (0 == 0)
       && schedulerStopping ⟨true, true, 0⟩) = false := by
  constructor
  · decide
  · decide

/-- C2 amended: the stopping(uint64_t&) overload returns true iff no
timer is pending and pending_event_count is zero and the base
scheduler's stopping condition (is_stopping AND empty queue AND zero
active threads) holds; the check that actually terminates the reactor
loop is the no-argument stopping(), which returns true iff
pending_event_count is zero and the base condition holds, with no timer
part. -/
theorem c2_stopping_amended (nextTimer pending : Nat) (s : SchedState) :
    ((stoppingTimeout nextTimer pending s).1 = true ↔
      (nextTimer = UINT64_MAX ∧ pending = 0 ∧ s.m_stopping = true ∧
        s.tasksEmpty = true ∧ s.activeThreadCount = 0)) ∧
    ((stoppingTimeout nextTimer pending s).2 = nextTimer) ∧
    (idleStopCheck nextTimer pending s = true ↔
      (pending = 0 ∧ s.m_stopping = true ∧ s.tasksEmpty = true ∧
        s.activeThreadCount = 0)) := by
  refine ⟨?_, rfl, ?_⟩ <;>
    simp [stoppingTimeout, idleStopCheck, stoppingNoArg, schedulerStopping,
      Bool.and_eq_true, and_assoc]

/-- C4: if the conditional timer fires while the witness is still alive
and not yet cancelled, the callback marks it cancelled = ETIMEDOUT and
invokes cancelEvent, and the resumed do_io observes the witness and
returns -1 with errno = ETIMEDOUT. -/
theorem c4_timeout_etimedout (t : TimerInfo) (h : t.cancelled = 0) :
    ioTimerCb (some t) = (some { cancelled := ETIMEDOUT }, true) ∧
    doIoAfterResume { cancelled := ETIMEDOUT } = some (-1, ETIMEDOUT) := by
  constructor
  · simp [ioTimerCb, h]
  · decide

theorem c4_timeout_etimedout_witness :
    ioTimerCb (some ⟨0⟩) = (some { cancelled := ETIMEDOUT }, true) ∧
    doIoAfterResume { cancelled := ETIMEDOUT } = some (-1, ETIMEDOUT) :=
  c4_timeout_etimedout ⟨0⟩ rfl

/-- C7: for a socket fd with an open context, after the F_SETFL hook runs
with argument `arg`, the F_GETFL hook's result has an O_NONBLOCK bit
(bit 11) equal to the O_NONBLOCK bit of `arg`, whatever flag word
`kernelFlags` the kernel reports. -/
theorem c7_fcntl_nonblock_roundtrip (c : FdCtx) (arg kernelFlags : Nat)
    (hs : c.isSocket = true) (hc : c.isClosed = false) :
    (fcntlGetfl (fcntlSetfl (some c) arg).1 kernelFlags).testBit 11
      = arg.testBit 11 := by
  have harg : arg &&& O_NONBLOCK = (arg.testBit 11).toNat * 2 ^ 11 := by
    have := Nat.and_two_pow arg 11
    simpa [O_NONBLOCK] using this
  simp only [fcntlSetfl, fcntlGetfl, hs, hc]
  by_cases hb : arg.testBit 11
  · simp only [harg, hb]
    norm_num
    simp only [Nat.testBit_lor, O_NONBLOCK]
    exact Or.inr (by decide)
  · simp only [harg, hb]
    norm_num
    simp only [Nat.testBit_land, cNot32, Nat.testBit_xor, O_NONBLOCK]
    exact fun _ => by decide

theorem c7_fcntl_nonblock_roundtrip_witness :
    (fcntlGetfl
        (fcntlSetfl (some ⟨true, false, true, false, 0, 0⟩) 2048).1 0).testBit 11
      = (2048 : Nat).testBit 11 :=
  c7_fcntl_nonblock_roundtrip ⟨true, false, true, false, 0, 0⟩ 2048 0 rfl rfl

/-- C8: Fiber::yield on a RUNNING fiber sets the current fiber to the
thread main fiber and moves the state to READY; on a TERM fiber it
preserves TERM and still redirects the current fiber; on the only other
state, READY, the precondition assertion fails. -/
theorem c8_fiber_yield (st : FiberState) (tl : FiberTL) :
    (st = .RUNNING →
      fiberYield st tl
        = some (.READY, { tl with tFiber := some tl.tThreadFiber })) ∧
    (st = .TERM →
      fiberYield st tl
        = some (.TERM, { tl with tFiber := some tl.tThreadFiber })) ∧
    (st = .READY → fiberYield st tl = none) := by
  refine ⟨?_, ?_, ?_⟩ <;> rintro rfl <;> simp [fiberYield]

theorem c8_fiber_yield_witness :
    fiberYield .RUNNING ⟨some 7, 3⟩
        = some (.READY, { tFiber := some 3, tThreadFiber := 3 }) ∧
    fiberYield .TERM ⟨some 7, 3⟩
        = some (.TERM, { tFiber := some 3, tThreadFiber := 3 }) ∧
    fiberYield .READY ⟨some 7, 3⟩ = none :=
  ⟨(c8_fiber_yield .RUNNING ⟨some 7, 3⟩).1 rfl,
   (c8_fiber_yield .TERM ⟨some 7, 3⟩).2.1 rfl,
   (c8_fiber_yield .READY ⟨some 7, 3⟩).2.2 rfl⟩

/-- C10: with hooking enabled and an fd context that is marked closed,
do_io returns -1 with errno = EBADF, and the decision constructor is
returnErr, which issues no call to the original syscall (callOriginal
and hookPath are the only syscall-issuing outcomes). -/
theorem c10_do_io_closed_ebadf (c : FdCtx) (tso : Bool)
    (h : c.isClosed = true) :
    do_io_pre true (some c) tso = .returnErr (-1) EBADF ∧
    do_io_pre true (some c) tso ≠ .callOriginal ∧
    ∀ t, do_io_pre true (some c) tso ≠ .hookPath t := by
  refine ⟨?_, ?_, ?_⟩ <;> simp [do_io_pre, h]

theorem c10_do_io_closed_ebadf_witness :
    do_io_pre true (some ⟨true, true, true, false, 0, 0⟩) true
        = DoIoPre.returnErr (-1) EBADF ∧
    do_io_pre true (some ⟨true, true, true, false, 0, 0⟩) true
        ≠ DoIoPre.callOriginal ∧
    ∀ t, do_io_pre true (some ⟨true, true, true, false, 0, 0⟩) true
        ≠ DoIoPre.hookPath t :=
  c10_do_io_closed_ebadf ⟨true, true, true, false, 0, 0⟩ true rfl

/-! ## Helper lemmas for the pending-count and round-trip claims -/

theorem lor_and_two_pow_ne (x i : Nat) : (x ||| 2 ^ i) &&& 2 ^ i ≠ 0 := by
  have h2 : (0 : Nat) < 2 ^ i := Nat.pos_pow_of_pos i (by omega)
  rw [Nat.and_two_pow]
  simp only [Nat.testBit_lor, Nat.testBit_two_pow_self, Bool.or_true,
    Bool.toNat_true, one_mul]
  omega

theorem events_le_five (e : Nat) (hwf : e &&& 5 = e) : e ≤ 5 := by
  calc e = e &&& 5 := hwf.symm
    _ ≤ 5 := Nat.and_le_right

/-- cancelEvent success: it fires the slot once (appending one task),
clears the bit, resets the slot and decrements the pending counter. -/
theorem cancelEvent_fires (s : IOMState) (fd ev idx : Nat)
    (hlen : fd < s.ctxs.length)
    (hreg : (ctxAt s fd).events &&& ev ≠ 0)
    (hidx : getEventContextIdx ev = some idx) :
    ∃ ts,
      cancelEvent s fd ev true =
        (.ret true,
          { s with
              pending := decr64 s.pending,
              ctxs := s.ctxs.set fd
                (setSlot
                  { ctxAt s fd with
                      events :=
                        (ctxAt s fd).events &&& cNot32 ev }
                  idx emptyEventContext),
              sched := s.sched ++ [ts] }) := by
  obtain ⟨ts, htr⟩ :=
    triggerEvent_some (ctxAt s fd) ev idx s.sched hreg hidx
  have h1 : ¬ (s.ctxs.length ≤ fd) := by omega
  refine ⟨ts, ?_⟩
  simp only [cancelEvent, h1, ite_false, hreg, htr]
  simp

/-- cancelAll success: fires every registered direction and decrements
the pending counter once per direction. -/
theorem cancelAll_pending (s : IOMState) (fd : Nat)
    (hlen : fd < s.ctxs.length)
    (hwf : (ctxAt s fd).events &&& 5
             = (ctxAt s fd).events)
    (hne : (ctxAt s fd).events ≠ 0)
    (hcnt : eventCount (ctxAt s fd).events ≤ s.pending)
    (hp : s.pending < 2 ^ 64) :
    (cancelAll s fd true).1 = .ret true ∧
    (cancelAll s fd true).2.pending
      = s.pending - eventCount (ctxAt s fd).events := by
  have h1 : ¬ (s.ctxs.length ≤ fd) := by omega
  have hle := events_le_five _ hwf
  have hcases : (ctxAt s fd).events = 1 ∨
      (ctxAt s fd).events = 2 ∨
      (ctxAt s fd).events = 3 ∨
      (ctxAt s fd).events = 4 ∨
      (ctxAt s fd).events = 5 := by omega
  rcases hcases with hE | hE | hE | hE | hE
  · obtain ⟨ts1, htr1⟩ :=
      triggerEvent_some (ctxAt s fd) READ 0 s.sched
        (by rw [hE]; decide) (by decide)
    rw [hE] at htr1
    have hc1 : eventCount 1 = 1 := by decide
    rw [hE, hc1] at hcnt
    have hdec := decr64_eq s.pending (by omega) hp
    refine ⟨?_, ?_⟩ <;>
      simp [cancelAll, h1, hE, htr1, setSlot_events, hc1, hdec,
        show READ % 2 = 1 by decide,
        show ((1 : Nat) &&& READ ≠ 0) by decide,
        show (1 : Nat) &&& cNot32 READ = 0 by decide,
        show (0 : Nat) &&& WRITE = 0 by decide]
  · rw [hE] at hwf
    exact absurd hwf (by decide)
  · rw [hE] at hwf
    exact absurd hwf (by decide)
  · obtain ⟨ts1, htr1⟩ :=
      triggerEvent_some (ctxAt s fd) WRITE 1 s.sched
        (by rw [hE]; decide) (by decide)
    rw [hE] at htr1
    have hc1 : eventCount 4 = 1 := by decide
    rw [hE, hc1] at hcnt
    have hdec := decr64_eq s.pending (by omega) hp
    refine ⟨?_, ?_⟩ <;>
      simp [cancelAll, h1, hE, htr1, setSlot_events, hc1, hdec,
        show (4 : Nat) &&& READ = 0 by decide,
        show ((4 : Nat) &&& WRITE ≠ 0) by decide,
        show (4 : Nat) &&& cNot32 WRITE = 0 by decide]
  · obtain ⟨ts1, htr1⟩ :=
      triggerEvent_some (ctxAt s fd) READ 0 s.sched
        (by rw [hE]; decide) (by decide)
    rw [hE] at htr1
    obtain ⟨ts2, htr2⟩ :=
      triggerEvent_some
        (setSlot
          { ctxAt s fd with events := 5 &&& cNot32 READ }
          0 emptyEventContext)
        WRITE 1 (s.sched ++ [ts1])
        (by simp [setSlot_events]; decide) (by decide)
    have hc1 : eventCount 5 = 2 := by decide
    rw [hE, hc1] at hcnt
    have hdec1 := decr64_eq s.pending (by omega) hp
    have hdec2 : decr64 (s.pending - 1) = s.pending - 2 := by
      rw [decr64_eq (s.pending - 1) (by omega) (by omega)]
      omega
    refine ⟨?_, ?_⟩ <;>
      simp [cancelAll, h1, hE, htr1, htr2, setSlot_events, hc1, hdec1, hdec2,
        show (5 : Nat) % 2 = 1 by decide,
        show ((5 : Nat) &&& READ ≠ 0) by decide,
        show ((5 : Nat) &&& cNot32 READ &&& WRITE ≠ 0) by decide,
        show (5 : Nat) &&& cNot32 READ &&& cNot32 WRITE = 0 by decide]

/-- One reactor dispatch of fired, registered directions: the pending
counter drops once per fired direction. -/
theorem idleDispatch_pending (s : IOMState) (fd evbits r : Nat)
    (hwf : (ctxAt s fd).events &&& 5 = (ctxAt s fd).events)
    (hreal : realEventsOf evbits (ctxAt s fd).events = r)
    (hr : r = 1 ∨ r = 4 ∨ r = 5)
    (hsub : r &&& (ctxAt s fd).events = r)
    (hcnt : eventCount r ≤ s.pending)
    (hp : s.pending < 2 ^ 64) :
    (idleDispatchOne s fd evbits true).isSome = true ∧
    ((idleDispatchOne s fd evbits true).getD s).pending
      = s.pending - eventCount r := by
  have hle := events_le_five _ hwf
  have hcases : (ctxAt s fd).events = 0 ∨ (ctxAt s fd).events = 1 ∨
      (ctxAt s fd).events = 2 ∨ (ctxAt s fd).events = 3 ∨
      (ctxAt s fd).events = 4 ∨ (ctxAt s fd).events = 5 := by omega
  rcases hr with rfl | rfl | rfl
  · rcases hcases with hE | hE | hE | hE | hE | hE
    · rw [hE] at hsub
      exact absurd hsub (by decide)
    · obtain ⟨ts1, htr1⟩ :=
        triggerEvent_some (ctxAt s fd) READ 0 s.sched (by rw [hE]; decide)
          (by decide)
      rw [hE] at hreal
      have hc1 : eventCount 1 = 1 := by decide
      rw [hc1] at hcnt ⊢
      have hdec := decr64_eq s.pending (by omega) hp
      refine ⟨?_, ?_⟩ <;>
        simp [idleDispatchOne, hreal, hE, htr1, setSlot_events, hdec,
          show READ % 2 = 1 by decide,
          show ((1 : Nat) &&& 1 ≠ 0) by decide,
          show (1 : Nat) &&& cNot32 READ = 0 by decide,
          show WRITE % 2 = 0 by decide,
          show (1 : Nat) &&& WRITE = 0 by decide]
    · rw [hE] at hwf
      exact absurd hwf (by decide)
    · rw [hE] at hwf
      exact absurd hwf (by decide)
    · rw [hE] at hsub
      exact absurd hsub (by decide)
    · obtain ⟨ts1, htr1⟩ :=
        triggerEvent_some (ctxAt s fd) READ 0 s.sched (by rw [hE]; decide)
          (by decide)
      rw [hE] at hreal
      have hc1 : eventCount 1 = 1 := by decide
      rw [hc1] at hcnt ⊢
      have hdec := decr64_eq s.pending (by omega) hp
      refine ⟨?_, ?_⟩ <;>
        simp [idleDispatchOne, hreal, hE, htr1, setSlot_events, hdec,
          show READ % 2 = 1 by decide,
          show ((5 : Nat) &&& 1 ≠ 0) by decide,
          show WRITE % 2 = 0 by decide,
          show (1 : Nat) &&& WRITE = 0 by decide]
  · rcases hcases with hE | hE | hE | hE | hE | hE
    · rw [hE] at hsub
      exact absurd hsub (by decide)
    · rw [hE] at hsub
      exact absurd hsub (by decide)
    · rw [hE] at hwf
      exact absurd hwf (by decide)
    · rw [hE] at hwf
      exact absurd hwf (by decide)
    · obtain ⟨ts1, htr1⟩ :=
        triggerEvent_some (ctxAt s fd) WRITE 1 s.sched (by rw [hE]; decide)
          (by decide)
      rw [hE] at hreal
      have hc1 : eventCount 4 = 1 := by decide
      rw [hc1] at hcnt ⊢
      have hdec := decr64_eq s.pending (by omega) hp
      refine ⟨?_, ?_⟩ <;>
        simp [idleDispatchOne, hreal, hE, htr1, setSlot_events, hdec,
          show ((4 : Nat) &&& 4 ≠ 0) by decide,
          show (4 : Nat) &&& READ = 0 by decide,
          show ((4 : Nat) &&& WRITE ≠ 0) by decide,
          show (4 : Nat) &&& cNot32 WRITE = 0 by decide]
    · obtain ⟨ts1, htr1⟩ :=
        triggerEvent_some (ctxAt s fd) WRITE 1 s.sched (by rw [hE]; decide)
          (by decide)
      rw [hE] at hreal
      have hc1 : eventCount 4 = 1 := by decide
      rw [hc1] at hcnt ⊢
      have hdec := decr64_eq s.pending (by omega) hp
      refine ⟨?_, ?_⟩ <;>
        simp [idleDispatchOne, hreal, hE, htr1, setSlot_events, hdec,
          show ((5 : Nat) &&& 4 ≠ 0) by decide,
          show (4 : Nat) &&& READ = 0 by decide,
          show ((4 : Nat) &&& WRITE ≠ 0) by decide]
  · rcases hcases with hE | hE | hE | hE | hE | hE
    · rw [hE] at hsub
      exact absurd hsub (by decide)
    · rw [hE] at hsub
      exact absurd hsub (by decide)
    · rw [hE] at hwf
      exact absurd hwf (by decide)
    · rw [hE] at hwf
      exact absurd hwf (by decide)
    · rw [hE] at hsub
      exact absurd hsub (by decide)
    · obtain ⟨ts1, htr1⟩ :=
        triggerEvent_some (ctxAt s fd) READ 0 s.sched (by rw [hE]; decide)
          (by decide)
      rw [hE] at hreal htr1
      obtain ⟨ts2, htr2⟩ :=
        triggerEvent_some
          (setSlot
            { ctxAt s fd with events := 5 &&& cNot32 READ }
            0 emptyEventContext)
          WRITE 1 (s.sched ++ [ts1])
          (by simp [setSlot_events]; decide) (by decide)
      have hc1 : eventCount 5 = 2 := by decide
      rw [hc1] at hcnt ⊢
      have hdec1 := decr64_eq s.pending (by omega) hp
      have hdec2 : decr64 (s.pending - 1) = s.pending - 2 := by
        rw [decr64_eq (s.pending - 1) (by omega) (by omega)]
        omega
      refine ⟨?_, ?_⟩ <;>
        simp [idleDispatchOne, hreal, hE, htr1, htr2, setSlot_events,
          hdec1, hdec2,
          show ((5 : Nat) &&& 5 ≠ 0) by decide,
          show ((5 : Nat) &&& READ ≠ 0) by decide,
          show ((5 : Nat) &&& WRITE ≠ 0) by decide,
          show ((5 : Nat) &&& cNot32 READ &&& WRITE ≠ 0) by decide,
          show (5 : Nat) &&& cNot32 READ &&& cNot32 WRITE = 0 by decide]

/-- C5: addEvent on a direction already registered for that fd trips the
duplicate-registration assertion: the operation aborts and the state is
unchanged, so nothing is registered a second time. -/
theorem c5_addEvent_duplicate (s : IOMState) (fd ev : Nat) (cbArg : Option Nat)
    (sc cf : Nat) (cfr epollOk : Bool)
    (hlen : fd < s.ctxs.length)
    (hdup : (ctxAt s fd).events &&& ev ≠ 0) :
    addEvent s fd ev cbArg sc cf cfr epollOk = (.abort, s) := by
  simp [addEvent, hlen, hdup]

theorem c5_addEvent_duplicate_witness :
    addEvent ⟨[{ freshFdContext 0 with events := 1 }], 1, []⟩ 0 1 none 0 0
        true true
      = (.abort, ⟨[{ freshFdContext 0 with events := 1 }], 1, []⟩) :=
  c5_addEvent_duplicate ⟨[{ freshFdContext 0 with events := 1 }], 1, []⟩
    0 1 none 0 0 true true (by decide) (by decide)

/-- C9: if the epoll_ctl call inside addEvent fails, addEvent returns -1
and the whole observable state — the fd's registered-events mask, both
event slots, the pending counter and the schedule list — is exactly what
it was before the call. -/
theorem c9_addEvent_epoll_error (s : IOMState) (fd ev : Nat)
    (cbArg : Option Nat) (sc cf : Nat) (cfr : Bool)
    (hlen : fd < s.ctxs.length)
    (hfree : (ctxAt s fd).events &&& ev = 0) :
    addEvent s fd ev cbArg sc cf cfr false = (.ret (-1), s) := by
  simp [addEvent, hlen, hfree]

theorem c9_addEvent_epoll_error_witness :
    addEvent ⟨[freshFdContext 0], 0, []⟩ 0 1 none 0 0 true false
      = (.ret (-1), ⟨[freshFdContext 0], 0, []⟩) :=
  c9_addEvent_epoll_error ⟨[freshFdContext 0], 0, []⟩ 0 1 none 0 0 true
    (by decide) (by decide)

/-- C3: a successful addEvent on a previously unregistered direction
increases the pending counter by exactly 1; a delEvent, a cancelEvent, a
cancelAll and one reactor firing pass each decrease it by exactly the
number of directions cleared (1 for delEvent/cancelEvent, the number of
registered directions for cancelAll, the number of fired registered
directions for the reactor). -/
theorem c3_pending_event_count :
    (∀ (s : IOMState) (fd ev : Nat) (cbArg : Option Nat) (sc cf idx : Nat),
      fd < s.ctxs.length →
      (ctxAt s fd).events &&& ev = 0 →
      getEventContextIdx ev = some idx →
      getSlot (ctxAt s fd) idx = emptyEventContext →
      s.pending + 1 < 2 ^ 64 →
      (addEvent s fd ev cbArg sc cf true true).1 = .ret 0 ∧
      (addEvent s fd ev cbArg sc cf true true).2.pending = s.pending + 1) ∧
    (∀ (s : IOMState) (fd ev idx : Nat),
      fd < s.ctxs.length →
      (ctxAt s fd).events &&& ev ≠ 0 →
      getEventContextIdx ev = some idx →
      1 ≤ s.pending → s.pending < 2 ^ 64 →
      (delEvent s fd ev true).1 = .ret true ∧
      (delEvent s fd ev true).2.pending = s.pending - 1) ∧
    (∀ (s : IOMState) (fd ev idx : Nat),
      fd < s.ctxs.length →
      (ctxAt s fd).events &&& ev ≠ 0 →
      getEventContextIdx ev = some idx →
      1 ≤ s.pending → s.pending < 2 ^ 64 →
      (cancelEvent s fd ev true).1 = .ret true ∧
      (cancelEvent s fd ev true).2.pending = s.pending - 1) ∧
    (∀ (s : IOMState) (fd : Nat),
      fd < s.ctxs.length →
      (ctxAt s fd).events &&& 5 = (ctxAt s fd).events →
      (ctxAt s fd).events ≠ 0 →
      eventCount (ctxAt s fd).events ≤ s.pending →
      s.pending < 2 ^ 64 →
      (cancelAll s fd true).1 = .ret true ∧
      (cancelAll s fd true).2.pending
        = s.pending - eventCount (ctxAt s fd).events) ∧
    (∀ (s : IOMState) (fd evbits r : Nat),
      (ctxAt s fd).events &&& 5 = (ctxAt s fd).events →
      realEventsOf evbits (ctxAt s fd).events = r →
      (r = 1 ∨ r = 4 ∨ r = 5) →
      r &&& (ctxAt s fd).events = r →
      eventCount r ≤ s.pending →
      s.pending < 2 ^ 64 →
      (idleDispatchOne s fd evbits true).isSome = true ∧
      ((idleDispatchOne s fd evbits true).getD s).pending
        = s.pending - eventCount r) := by
  refine ⟨?_, ?_, ?_, ?_, ?_⟩
  · intro s fd ev cbArg sc cf idx hlen hfree hidx hslot hp
    rw [addEvent_ok s fd ev cbArg sc cf idx hlen hfree hidx hslot]
    exact ⟨rfl, incr64_eq s.pending hp⟩
  · intro s fd ev idx hlen hreg hidx h1 h2
    rw [delEvent_ok s fd ev idx hlen hreg hidx]
    exact ⟨rfl, decr64_eq s.pending h1 h2⟩
  · intro s fd ev idx hlen hreg hidx h1 h2
    obtain ⟨ts, hc⟩ := cancelEvent_fires s fd ev idx hlen hreg hidx
    rw [hc]
    exact ⟨rfl, decr64_eq s.pending h1 h2⟩
  · intro s fd hlen hwf hne hcnt hp
    exact cancelAll_pending s fd hlen hwf hne hcnt hp
  · intro s fd evbits r hwf hreal hr hsub hcnt hp
    exact idleDispatch_pending s fd evbits r hwf hreal hr hsub hcnt hp

theorem c3_pending_event_count_witness :
    ((addEvent ⟨[freshFdContext 0], 0, []⟩ 0 READ none 0 0 true true).1
        = OpRes.ret 0 ∧
     (addEvent ⟨[freshFdContext 0], 0, []⟩ 0 READ none 0 0 true true).2.pending
        = 0 + 1) ∧
    (delEvent ⟨[{ freshFdContext 0 with events := 1 }], 1, []⟩ 0 READ
        true).2.pending = 1 - 1 ∧
    (cancelEvent ⟨[{ freshFdContext 0 with events := 1 }], 1, []⟩ 0 READ
        true).1 = OpRes.ret true ∧
    (cancelAll ⟨[{ freshFdContext 0 with events := 5 }], 2, []⟩ 0
        true).2.pending
      = 2 - eventCount
          (ctxAt ⟨[{ freshFdContext 0 with events := 5 }], 2, []⟩ 0).events ∧
    (idleDispatchOne ⟨[{ freshFdContext 0 with events := 1 }], 1, []⟩ 0 1
        true).isSome = true :=
  ⟨c3_pending_event_count.1 ⟨[freshFdContext 0], 0, []⟩ 0 READ none 0 0 0
      (by decide) (by decide) (by decide) (by decide) (by norm_num),
   (c3_pending_event_count.2.1 ⟨[{ freshFdContext 0 with events := 1 }], 1, []⟩
      0 READ 0 (by decide) (by decide) (by decide) (by decide)
      (by norm_num)).2,
   (c3_pending_event_count.2.2.1
      ⟨[{ freshFdContext 0 with events := 1 }], 1, []⟩
      0 READ 0 (by decide) (by decide) (by decide) (by decide)
      (by norm_num)).1,
   (c3_pending_event_count.2.2.2.1
      ⟨[{ freshFdContext 0 with events := 5 }], 2, []⟩ 0
      (by decide) (by decide) (by decide) (by decide) (by norm_num)).2,
   (c3_pending_event_count.2.2.2.2
      ⟨[{ freshFdContext 0 with events := 1 }], 1, []⟩ 0 1 1
      (by decide) (by decide) (by decide) (by decide) (by decide)
      (by norm_num)).1⟩

/-- C6: addEvent on an unregistered direction followed by delEvent on the
same direction restores the fd's registered-events mask and the pending
counter to their prior values and hands nothing to the scheduler (no
callback fired, no coroutine resumed). -/
theorem c6_add_del_roundtrip (s : IOMState) (fd ev sc cf : Nat)
    (hlen : fd < s.ctxs.length)
    (hev : ev = READ ∨ ev = WRITE)
    (hwf : (ctxAt s fd).events &&& 5 = (ctxAt s fd).events)
    (hfree : (ctxAt s fd).events &&& ev = 0)
    (hslotR : ev = READ → (ctxAt s fd).read = emptyEventContext)
    (hslotW : ev = WRITE → (ctxAt s fd).write = emptyEventContext)
    (hp : s.pending + 1 < 2 ^ 64) :
    (addEvent s fd ev none sc cf true true).1 = .ret 0 ∧
    (delEvent (addEvent s fd ev none sc cf true true).2 fd ev true).1
      = .ret true ∧
    (ctxAt (delEvent (addEvent s fd ev none sc cf true true).2 fd ev
        true).2 fd).events
      = (ctxAt s fd).events ∧
    (delEvent (addEvent s fd ev none sc cf true true).2 fd ev true).2.pending
      = s.pending ∧
    (delEvent (addEvent s fd ev none sc cf true true).2 fd ev true).2.sched
      = s.sched := by
  have h1 : ¬ (s.ctxs.length ≤ fd) := by omega
  have hinc : incr64 s.pending = s.pending + 1 := incr64_eq s.pending hp
  have hdec : decr64 (s.pending + 1) = s.pending := by
    rw [decr64_eq (s.pending + 1) (by omega) (by omega)]
    omega
  have hle := events_le_five _ hwf
  rcases hev with rfl | rfl
  · have hadd := addEvent_ok s fd READ none sc cf 0 hlen hfree (by decide)
      (by simpa [getSlot] using hslotR rfl)
    have hcases : (ctxAt s fd).events = 0 ∨ (ctxAt s fd).events = 4 := by
      have h5 : (ctxAt s fd).events = 0 ∨ (ctxAt s fd).events = 1 ∨
          (ctxAt s fd).events = 2 ∨ (ctxAt s fd).events = 3 ∨
          (ctxAt s fd).events = 4 ∨ (ctxAt s fd).events = 5 := by omega
      rcases h5 with h | h | h | h | h | h
      · exact Or.inl h
      · rw [h] at hfree; exact absurd hfree (by decide)
      · rw [h] at hwf; exact absurd hwf (by decide)
      · rw [h] at hwf; exact absurd hwf (by decide)
      · exact Or.inr h
      · rw [h] at hfree; exact absurd hfree (by decide)
    rcases hcases with hE | hE <;>
      refine ⟨?_, ?_, ?_, ?_, ?_⟩ <;>
        simp [hadd, delEvent, h1, ctxAt_set, setSlot, getEventContextIdx,
          hE, hinc, hdec, hlen,
          show (READ : Nat) ≠ 0 by decide,
          show (READ : Nat) &&& cNot32 READ = 0 by decide,
          show (((4 : Nat) ||| READ) &&& READ ≠ 0) by decide,
          show ((4 : Nat) ||| READ) &&& cNot32 READ = 4 by decide]
  · have hadd := addEvent_ok s fd WRITE none sc cf 1 hlen hfree (by decide)
      (by simpa [getSlot] using hslotW rfl)
    have hcases : (ctxAt s fd).events = 0 ∨ (ctxAt s fd).events = 1 := by
      have h5 : (ctxAt s fd).events = 0 ∨ (ctxAt s fd).events = 1 ∨
          (ctxAt s fd).events = 2 ∨ (ctxAt s fd).events = 3 ∨
          (ctxAt s fd).events = 4 ∨ (ctxAt s fd).events = 5 := by omega
      rcases h5 with h | h | h | h | h | h
      · exact Or.inl h
      · exact Or.inr h
      · rw [h] at hwf; exact absurd hwf (by decide)
      · rw [h] at hwf; exact absurd hwf (by decide)
      · rw [h] at hfree; exact absurd hfree (by decide)
      · rw [h] at hfree; exact absurd hfree (by decide)
    rcases hcases with hE | hE <;>
      refine ⟨?_, ?_, ?_, ?_, ?_⟩ <;>
        simp [hadd, delEvent, h1, ctxAt_set, setSlot, getEventContextIdx,
          hE, hinc, hdec, hlen,
          show ¬ (WRITE = READ) by decide,
          show (WRITE : Nat) ≠ 0 by decide,
          show (WRITE : Nat) &&& cNot32 WRITE = 0 by decide,
          show (((1 : Nat) ||| WRITE) &&& WRITE ≠ 0) by decide,
          show ((1 : Nat) ||| WRITE) &&& cNot32 WRITE = 1 by decide]

theorem c6_add_del_roundtrip_witness :
    (addEvent ⟨[freshFdContext 0], 0, []⟩ 0 READ none 0 0 true true).1
      = OpRes.ret 0 ∧
    (delEvent (addEvent ⟨[freshFdContext 0], 0, []⟩ 0 READ none 0 0 true
        true).2 0 READ true).1 = OpRes.ret true ∧
    (ctxAt (delEvent (addEvent ⟨[freshFdContext 0], 0, []⟩ 0 READ none 0 0
        true true).2 0 READ true).2 0).events
      = (ctxAt ⟨[freshFdContext 0], 0, []⟩ 0).events ∧
    (delEvent (addEvent ⟨[freshFdContext 0], 0, []⟩ 0 READ none 0 0 true
        true).2 0 READ true).2.pending = 0 ∧
    (delEvent (addEvent ⟨[freshFdContext 0], 0, []⟩ 0 READ none 0 0 true
        true).2 0 READ true).2.sched = [] :=
  c6_add_del_roundtrip ⟨[freshFdContext 0], 0, []⟩ 0 READ 0 0
    (by decide) (Or.inl rfl) (by decide) (by decide)
    (fun _ => rfl) (by decide) (by norm_num)

end CoroutineModel
